import Mathlib

/-!
Shallow embedding of the vaccinate dependency-injection helper.

The repository holds two variants of the same module:
* src/lib/index.js — `vaccinate(func, options, context)` with a single-string
  `moduleDir` and an optional invocation context;
* src/unnamed/part_000 — `vaccinate(func, options)` with a string-or-array
  `moduleDir` searched in order, and no context parameter.

Both are modelled here over a small universe of host-language values.  The
host module system (`require`) and the behaviour of target functions are
abstract parameters; executions record a trace of host-loader calls and
target invocations so that call order, receiver and argument sequences are
observable.  Recursive vaccination is modelled with explicit fuel: running
out of fuel is the embedding of the host call-stack overflowing, which is
what the real code does on circular dependency chains.
-/

/-- Host-language values: undefined, strings, opaque non-function objects,
and function values.  A function value carries an identifier (its identity)
and its array-valued properties; the property under
`options.dependenciesProperty` is the dependency declaration. -/
inductive JSVal where
  | undef
  | str (s : String)
  | obj (id : Nat)
  | fn (id : Nat) (props : List (String × List JSVal))

/-- Errors that can surface from a run: TypeError (reading a property of
undefined, or applying a non-function), errors produced by the host module
system while loading, and RangeError for call-stack exhaustion. -/
inductive JSErr where
  | typeError (msg : String)
  | loadError (msg : String)
  | rangeError (msg : String)
deriving DecidableEq

/-- Observable events of a run: a call into the host module system with a
resolved name, and an invocation of a target function with its receiver and
positional arguments. -/
inductive JsEvent where
  | host (name : String)
  | invoke (id : Nat) (recv : Option JSVal) (args : List JSVal)

/-- The shape of `options.moduleDir`: absent (undefined), a single base-path
string, or an ordered list of base paths. -/
inductive ModuleDir where
  | absent
  | single (dir : String)
  | dirList (dirs : List String)
deriving DecidableEq

/-- The effective per-call options record consumed by resolution (after the
merge with the defaults): the name of the dependency-declaration property
and the module-directory setting. -/
structure VaccOptions where
  dependenciesProperty : String
  moduleDir : ModuleDir

/-- Property access on a function value: first binding of the given key, or
none when the property is absent. -/
def propLookup : List (String × List JSVal) → String → Option (List JSVal)
  | [], _ => none
  | (k, v) :: rest, p => if k == p then some v else propLookup rest p

/-- JS truthiness of a value: undefined and the empty string are falsy;
objects, functions and non-empty strings are truthy. -/
def truthy : JSVal → Bool
  | JSVal.undef => false
  | JSVal.str s => !(s == "")
  | JSVal.obj _ => true
  | JSVal.fn _ _ => true

/-- JS truthiness of the moduleDir option value: undefined is falsy, a
string is truthy iff non-empty, and an array is always truthy (including
the empty array). -/
def moduleDirTruthy : ModuleDir → Bool
  | ModuleDir.absent => false
  | ModuleDir.single d => !(d == "")
  | ModuleDir.dirList _ => true

/-- The list of directories searched by part_000: a string becomes a
one-element list, an array is used as is.  Only reached under a truthy
moduleDir. -/
def toDirList : ModuleDir → List String
  | ModuleDir.absent => []
  | ModuleDir.single d => [d]
  | ModuleDir.dirList ds => ds

/-- JS string coercion of the moduleDir value, as performed by the string
concatenation in src/lib/index.js; an array stringifies to its elements
joined by commas. -/
def moduleDirToString : ModuleDir → String
  | ModuleDir.absent => "undefined"
  | ModuleDir.single d => d
  | ModuleDir.dirList ds => String.intercalate "," ds

/-- The lodash test startsWith(module, ./) used by both loaders. -/
def startsWithDotSlash (s : String) : Bool :=
  match s.data with
  | '.' :: '/' :: _ => true
  | _ => false

/-- The receiver computed by func.apply(context OR null, args) in
src/lib/index.js: a truthy provided context is used as is, anything else
collapses to null (modelled as none). -/
def jsReceiver : Option JSVal → Option JSVal
  | some c => if truthy c then some c else none
  | none => none

/-- The check guarding recursive vaccination in both default loaders: the
loaded value is a function and carries an array under the configured
dependencies property. -/
def isDeclaringFn (depsProp : String) : JSVal → Bool
  | JSVal.fn _ props => (propLookup props depsProp).isSome
  | _ => false

/-- The host module-loading facility: given a fully resolved name, produce
a value or fail. -/
def HostRequire : Type := String → Except JSErr JSVal

/-- Abstract semantics of invoking a function value: given its identifier,
receiver and arguments, the value it returns. -/
def ApplyFn : Type := Nat → Option JSVal → List JSVal → JSVal

def mapOfUndefinedMsg : String := "TypeError: cannot read property map of undefined"

def applyNotFunctionMsg : String := "TypeError: func.apply is not a function"

def stackOverflowMsg : String := "RangeError: maximum call stack size exceeded"

/-- Result of one run of the vaccinate body with an abstract loader: the
references the loader was called on (in order), the invocations of the
target (receiver and argument list), and the returned value or error. -/
structure InvokeOut where
  loaderCalls : List JSVal
  invocations : List (Option JSVal × List JSVal)
  result : Except JSErr JSVal

/-- The map over the dependency declaration in vaccinate, line 22: call the
loader on each reference in order; an error thrown by the loader aborts the
map immediately.  The first component records the references actually
passed to the loader. -/
def mapLoader (loader : JSVal → Except JSErr JSVal) :
    List JSVal → List JSVal × Except JSErr (List JSVal)
  | [] => ([], Except.ok [])
  | r :: rs =>
    match loader r with
    | Except.error e => ([r], Except.error e)
    | Except.ok v =>
      match mapLoader loader rs with
      | (calls, Except.error e) => (r :: calls, Except.error e)
      | (calls, Except.ok vs) => (r :: calls, Except.ok (v :: vs))

/-- The body of vaccinate from src/lib/index.js lines 18 to 25, with the
per-call loader (options.require) abstracted as a function parameter:
read the declaration under depsProp, map the loader over it, then invoke
the target once with the resolved values and the receiver given by
context OR null.  A missing declaration is the unchecked TypeError of
reading map of undefined. -/
def vaccinateWith (loader : JSVal → Except JSErr JSVal) (app : ApplyFn)
    (func : JSVal) (depsProp : String) (context : Option JSVal) : InvokeOut :=
  match func with
  | JSVal.fn id props =>
    match propLookup props depsProp with
    | none => ⟨[], [], Except.error (JSErr.typeError mapOfUndefinedMsg)⟩
    | some decl =>
      match mapLoader loader decl with
      | (calls, Except.error e) => ⟨calls, [], Except.error e⟩
      | (calls, Except.ok args) =>
        ⟨calls, [(jsReceiver context, args)],
          Except.ok (app id (jsReceiver context) args)⟩
  | _ => ⟨[], [], Except.error (JSErr.typeError applyNotFunctionMsg)⟩

/-- The multi-directory search loop of part_000 lines 37 to 45: for each
base directory in order, attempt the host loader on dir slash name.  On
success the dependency is the loaded value and the recorded exception is
cleared; on failure the exception is overwritten with this failure and the
next directory is tried.  The trace records every host attempt. -/
def tryDirs (host : HostRequire) (name : String) :
    List String → List JsEvent → Option JSErr →
      List JsEvent × Option JSVal × Option JSErr
  | [], tr, ex => (tr, none, ex)
  | d :: rest, tr, _ex =>
    match host (d ++ "/" ++ name) with
    | Except.ok v => (tr ++ [JsEvent.host (d ++ "/" ++ name)], some v, none)
    | Except.error e =>
      tryDirs host name rest (tr ++ [JsEvent.host (d ++ "/" ++ name)]) (some e)

/-- The raw load phase of the part_000 default loader, lines 30 to 50:
non-strings pass through unchanged; a string with a truthy moduleDir and a
relative prefix goes through the directory search (throwing the recorded
exception when present, otherwise yielding the dependency variable, which
is undefined when no directory succeeded and none threw); any other string
goes to the host loader directly. -/
def loadPhase (host : HostRequire) (opts : VaccOptions) (m : JSVal)
    (tr : List JsEvent) : List JsEvent × Except JSErr JSVal :=
  match m with
  | JSVal.str s =>
    if moduleDirTruthy opts.moduleDir && startsWithDotSlash s then
      match tryDirs host s (toDirList opts.moduleDir) tr none with
      | (tr2, _, some e) => (tr2, Except.error e)
      | (tr2, dep, none) => (tr2, Except.ok (dep.getD JSVal.undef))
    else
      match host s with
      | Except.ok v => (tr ++ [JsEvent.host s], Except.ok v)
      | Except.error e => (tr ++ [JsEvent.host s], Except.error e)
  | v => (tr, Except.ok v)

/-- The type of a fully applied part_000 vaccinate: target, options, trace
in, trace and result out. -/
def VacFun : Type :=
  JSVal → VaccOptions → List JsEvent → List JsEvent × Except JSErr JSVal

/-- The part_000 default loader given the vaccinate function to use for
recursion, lines 29 to 59: a non-string reference is returned raw at once
by the early return on line 30, before any loading and before the
recursive-vaccination check; a string reference goes through the load
phase and then, when the value obtained from the host is a function
carrying an array under the dependencies property, it is recursively
vaccinated with the same options; otherwise the loaded value is returned
as is. -/
def requireWith (vac : VacFun) (host : HostRequire) (opts : VaccOptions)
    (m : JSVal) (tr : List JsEvent) : List JsEvent × Except JSErr JSVal :=
  match m with
  | JSVal.str s =>
    match loadPhase host opts (JSVal.str s) tr with
    | (tr2, Except.error e) => (tr2, Except.error e)
    | (tr2, Except.ok v) =>
      match v with
      | JSVal.fn id props =>
        match propLookup props opts.dependenciesProperty with
        | some _ => vac (JSVal.fn id props) opts tr2
        | none => (tr2, Except.ok (JSVal.fn id props))
      | w => (tr2, Except.ok w)
  | v => (tr, Except.ok v)

/-- Sequential resolution of a declaration with a given loader, the map on
part_000 line 22: loader errors abort immediately, successes are collected
in declaration order. -/
def resolveWith
    (loader : JSVal → List JsEvent → List JsEvent × Except JSErr JSVal) :
    List JSVal → List JsEvent → List JsEvent × Except JSErr (List JSVal)
  | [], tr => (tr, Except.ok [])
  | r :: rs, tr =>
    match loader r tr with
    | (tr2, Except.error e) => (tr2, Except.error e)
    | (tr2, Except.ok v) =>
      match resolveWith loader rs tr2 with
      | (tr3, Except.error e) => (tr3, Except.error e)
      | (tr3, Except.ok vs) => (tr3, Except.ok (v :: vs))

/-- One unfolding of part_000 vaccinate, lines 18 to 25, where recursive
vaccination inside the default loader uses the previous fuel level: read
the declaration, resolve each reference with the default loader, then
invoke the target with receiver null and the resolved arguments. -/
def vaccinateStep (host : HostRequire) (app : ApplyFn) (prev : VacFun) :
    VacFun := fun func opts tr =>
  match func with
  | JSVal.fn id props =>
    match propLookup props opts.dependenciesProperty with
    | none => (tr, Except.error (JSErr.typeError mapOfUndefinedMsg))
    | some decl =>
      match resolveWith (fun m tr2 => requireWith prev host opts m tr2) decl tr with
      | (tr2, Except.error e) => (tr2, Except.error e)
      | (tr2, Except.ok args) =>
        (tr2 ++ [JsEvent.invoke id none args], Except.ok (app id none args))
  | _ => (tr, Except.error (JSErr.typeError applyNotFunctionMsg))

/-- The part_000 vaccinate with fuel: zero fuel is the host stack
overflowing on an unbounded recursive-vaccination chain. -/
def vaccinate (host : HostRequire) (app : ApplyFn) : Nat → VacFun
  | 0 => fun _ _ tr => (tr, Except.error (JSErr.rangeError stackOverflowMsg))
  | fuel + 1 => vaccinateStep host app (vaccinate host app fuel)

/-- The part_000 default loader at a given fuel level, as called from
vaccinate at fuel plus one. -/
def defaultRequire (host : HostRequire) (app : ApplyFn) (fuel : Nat)
    (opts : VaccOptions) (m : JSVal) (tr : List JsEvent) :
    List JsEvent × Except JSErr JSVal :=
  requireWith (vaccinate host app fuel) host opts m tr

/-- The raw load phase of the src/lib/index.js default loader, lines 32 to
34: non-strings pass through; a string with a truthy moduleDir and a
relative prefix is resolved by a single host call on the concatenation of
the stringified moduleDir, a slash and the name; any other string goes to
the host loader directly. -/
def loadPhaseLib (host : HostRequire) (opts : VaccOptions) (m : JSVal)
    (tr : List JsEvent) : List JsEvent × Except JSErr JSVal :=
  match m with
  | JSVal.str s =>
    if moduleDirTruthy opts.moduleDir && startsWithDotSlash s then
      match host (moduleDirToString opts.moduleDir ++ "/" ++ s) with
      | Except.ok v =>
        (tr ++ [JsEvent.host (moduleDirToString opts.moduleDir ++ "/" ++ s)],
          Except.ok v)
      | Except.error e =>
        (tr ++ [JsEvent.host (moduleDirToString opts.moduleDir ++ "/" ++ s)],
          Except.error e)
    else
      match host s with
      | Except.ok v => (tr ++ [JsEvent.host s], Except.ok v)
      | Except.error e => (tr ++ [JsEvent.host s], Except.error e)
  | v => (tr, Except.ok v)

/-- The type of a fully applied src/lib vaccinate: target, options,
optional context, trace in, trace and result out. -/
def VacFunLib : Type :=
  JSVal → VaccOptions → Option JSVal → List JsEvent →
    List JsEvent × Except JSErr JSVal

/-- The src/lib default loader given the vaccinate function to use for
recursion, lines 30 to 41: a non-string reference is returned raw at once
by the early return on line 30, before any loading and before the
recursive-vaccination check; a string reference goes through the load
phase and a declaring function obtained from the host is recursively
vaccinated with the same options and no context. -/
def requireWithLib (vac : VacFunLib) (host : HostRequire)
    (opts : VaccOptions) (m : JSVal) (tr : List JsEvent) :
    List JsEvent × Except JSErr JSVal :=
  match m with
  | JSVal.str s =>
    match loadPhaseLib host opts (JSVal.str s) tr with
    | (tr2, Except.error e) => (tr2, Except.error e)
    | (tr2, Except.ok v) =>
      match v with
      | JSVal.fn id props =>
        match propLookup props opts.dependenciesProperty with
        | some _ => vac (JSVal.fn id props) opts none tr2
        | none => (tr2, Except.ok (JSVal.fn id props))
      | w => (tr2, Except.ok w)
  | v => (tr, Except.ok v)

/-- One unfolding of src/lib vaccinate, lines 18 to 25: as the part_000
step, but the target is invoked with the receiver context OR null. -/
def vaccinateStepLib (host : HostRequire) (app : ApplyFn)
    (prev : VacFunLib) : VacFunLib := fun func opts context tr =>
  match func with
  | JSVal.fn id props =>
    match propLookup props opts.dependenciesProperty with
    | none => (tr, Except.error (JSErr.typeError mapOfUndefinedMsg))
    | some decl =>
      match resolveWith (fun m tr2 => requireWithLib prev host opts m tr2) decl tr with
      | (tr2, Except.error e) => (tr2, Except.error e)
      | (tr2, Except.ok args) =>
        (tr2 ++ [JsEvent.invoke id (jsReceiver context) args],
          Except.ok (app id (jsReceiver context) args))
  | _ => (tr, Except.error (JSErr.typeError applyNotFunctionMsg))

/-- The src/lib vaccinate with fuel. -/
def vaccinateLib (host : HostRequire) (app : ApplyFn) : Nat → VacFunLib
  | 0 => fun _ _ _ tr => (tr, Except.error (JSErr.rangeError stackOverflowMsg))
  | fuel + 1 => vaccinateStepLib host app (vaccinateLib host app fuel)

/-- A caller-visible options object before the defaults merge: each field
may be present or absent (undefined).  The loader override is identified
opaquely by a number. -/
structure OptionsObj where
  dependenciesProperty : Option String
  moduleDir : Option ModuleDir
  require : Option Nat
deriving DecidableEq

/-- The empty object substituted for an omitted options argument on
line 19 of both implementations. -/
def emptyOptionsObj : OptionsObj := ⟨none, none, none⟩

/-- The lodash defaults call on line 20: fields of the object that are
undefined are filled in place from the source; defined fields are kept. -/
def lodashDefaults (obj src : OptionsObj) : OptionsObj :=
  { dependenciesProperty :=
      match obj.dependenciesProperty with
      | some v => some v
      | none => src.dependenciesProperty,
    moduleDir :=
      match obj.moduleDir with
      | some v => some v
      | none => src.moduleDir,
    require :=
      match obj.require with
      | some v => some v
      | none => src.require }

/-- The state of the caller's options object after lines 19 and 20 of
vaccinate: since lodash defaults mutates its first argument in place, the
object the caller passed (or a fresh empty object when none was passed) is
the merged record after the call. -/
def vaccinateOptionsAfter (callerOptions : Option OptionsObj)
    (defaults : OptionsObj) : OptionsObj :=
  lodashDefaults (callerOptions.getD emptyOptionsObj) defaults

/-- The shipped defaults record: the dependencies property name and the
default loader (identified opaquely as loader zero); no moduleDir. -/
def vaccinateDefaultsObj : OptionsObj := ⟨some "$vaccinations", none, some 0⟩

/-- Concrete target semantics used in witnesses: the result value encodes
the function identifier and the number of arguments it received. -/
def app0 : ApplyFn := fun id _ args => JSVal.obj (id + args.length)

/-- Concrete loader used in witnesses: every reference resolves to the
same object. -/
def loader0 : JSVal → Except JSErr JSVal := fun _ => Except.ok (JSVal.obj 7)

/-- The resolution function realised by loader0. -/
def g0 : JSVal → JSVal := fun _ => JSVal.obj 7

/-- Concrete loader used in witnesses: string references fail to load,
anything else resolves to undefined. -/
def loaderE : JSVal → Except JSErr JSVal := fun r =>
  match r with
  | JSVal.str _ => Except.error (JSErr.loadError "not found")
  | _ => Except.ok JSVal.undef

/-- A two-entry dependency declaration used in witnesses. -/
def decl0 : List JSVal := [JSVal.str "a", JSVal.obj 1]

/-- Properties of a target carrying decl0 under the default property. -/
def props0 : List (String × List JSVal) := [("$vaccinations", decl0)]

/-- A host module system on which every load fails, the error carrying the
attempted name. -/
def hostB : HostRequire := fun name => Except.error (JSErr.loadError name)

/-- A host module system where only the name u resolves, to a function
with an empty dependency declaration. -/
def host0 : HostRequire := fun name =>
  if name == "u" then Except.ok (JSVal.fn 5 [("$vaccinations", [])])
  else Except.error (JSErr.loadError name)

/-- A host module system where only the search path of directory D2 for
the relative name ./x resolves, to a plain object. -/
def hostC : HostRequire := fun name =>
  if name == "D2/./x" then Except.ok (JSVal.obj 9)
  else Except.error (JSErr.loadError name)

/-- Options with the default dependencies property and no moduleDir. -/
def opts0 : VaccOptions := ⟨"$vaccinations", ModuleDir.absent⟩

/-- Options with a single-string moduleDir. -/
def optsS : VaccOptions := ⟨"$vaccinations", ModuleDir.single "D"⟩

/-- Options with a two-directory moduleDir list. -/
def optsL2 : VaccOptions := ⟨"$vaccinations", ModuleDir.dirList ["D1", "D2"]⟩

/-- Options with a three-directory moduleDir list. -/
def optsL3 : VaccOptions :=
  ⟨"$vaccinations", ModuleDir.dirList ["D1", "D2", "D3"]⟩

/-- Options with an empty moduleDir list. -/
def optsE : VaccOptions := ⟨"$vaccinations", ModuleDir.dirList []⟩

theorem mapLoader_all_ok (loader : JSVal → Except JSErr JSVal)
    (g : JSVal → JSVal) :
    ∀ refs : List JSVal, (∀ r ∈ refs, loader r = Except.ok (g r)) →
      mapLoader loader refs = (refs, Except.ok (refs.map g)) := by
  intro refs
  induction refs with
  | nil => intro _; rfl
  | cons r rs ih =>
    intro h
    have hr : loader r = Except.ok (g r) := h r (List.mem_cons_self r rs)
    have hrs := ih (fun x hx => h x (List.mem_cons_of_mem r hx))
    simp [mapLoader, hr, hrs]

theorem mapLoader_fail (loader : JSVal → Except JSErr JSVal) (e : JSErr) :
    ∀ pre : List JSVal, ∀ rk : JSVal, ∀ post : List JSVal,
      (∀ r ∈ pre, ∃ v, loader r = Except.ok v) →
      loader rk = Except.error e →
      mapLoader loader (pre ++ rk :: post) = (pre ++ [rk], Except.error e) := by
  intro pre
  induction pre with
  | nil => intro rk post _ herr; simp [mapLoader, herr]
  | cons p ps ih =>
    intro rk post hpre herr
    obtain ⟨v, hv⟩ := hpre p (List.mem_cons_self p ps)
    have hrest := ih rk post (fun x hx => hpre x (List.mem_cons_of_mem p hx)) herr
    simp [mapLoader, hv, hrest]

/-- C1: for a target whose dependency declaration is the array decl, the
injector calls the loader once per entry in declaration order (the loader
call sequence equals decl), and invokes the target exactly once with the n
resolved values as positional arguments in declaration order; with an
empty declaration the target is invoked exactly once with zero
arguments. -/
theorem vaccinate_calls_loader_in_order
    (loader : JSVal → Except JSErr JSVal) (app : ApplyFn) (g : JSVal → JSVal)
    (id : Nat) (props : List (String × List JSVal)) (depsProp : String)
    (context : Option JSVal) (decl : List JSVal)
    (hdecl : propLookup props depsProp = some decl)
    (hload : ∀ r ∈ decl, loader r = Except.ok (g r)) :
    (vaccinateWith loader app (JSVal.fn id props) depsProp context).loaderCalls
        = decl
    ∧ (vaccinateWith loader app (JSVal.fn id props) depsProp context).invocations
        = [(jsReceiver context, decl.map g)]
    ∧ (vaccinateWith loader app (JSVal.fn id props) depsProp context).result
        = Except.ok (app id (jsReceiver context) (decl.map g)) := by
  have hm := mapLoader_all_ok loader g decl hload
  simp [vaccinateWith, hdecl, hm]

theorem vaccinate_calls_loader_in_order_witness :
    (vaccinateWith loader0 app0 (JSVal.fn 0 props0) "$vaccinations" none).loaderCalls
        = decl0
    ∧ (vaccinateWith loader0 app0 (JSVal.fn 0 props0) "$vaccinations" none).invocations
        = [(jsReceiver none, decl0.map g0)]
    ∧ (vaccinateWith loader0 app0 (JSVal.fn 0 props0) "$vaccinations" none).result
        = Except.ok (app0 0 (jsReceiver none) (decl0.map g0)) :=
  vaccinate_calls_loader_in_order loader0 app0 g0 0 props0 "$vaccinations"
    none decl0 rfl (fun _ _ => rfl)

/-- C7: when loading one dependency reference raises an error after all
earlier references loaded successfully, the error propagates to the
caller, the loader is not called on any later entry of the declaration,
and the target is never invoked. -/
theorem vaccinate_fail_fast
    (loader : JSVal → Except JSErr JSVal) (app : ApplyFn)
    (id : Nat) (props : List (String × List JSVal)) (depsProp : String)
    (context : Option JSVal) (pre : List JSVal) (rk : JSVal)
    (post : List JSVal) (e : JSErr)
    (hdecl : propLookup props depsProp = some (pre ++ rk :: post))
    (hpre : ∀ r ∈ pre, ∃ v, loader r = Except.ok v)
    (herr : loader rk = Except.error e) :
    (vaccinateWith loader app (JSVal.fn id props) depsProp context).result
        = Except.error e
    ∧ (vaccinateWith loader app (JSVal.fn id props) depsProp context).loaderCalls
        = pre ++ [rk]
    ∧ (vaccinateWith loader app (JSVal.fn id props) depsProp context).invocations
        = [] := by
  have hm := mapLoader_fail loader e pre rk post hpre herr
  simp [vaccinateWith, hdecl, hm]

theorem vaccinate_fail_fast_witness :
    (vaccinateWith loaderE app0
        (JSVal.fn 0 [("$vaccinations", [JSVal.obj 1, JSVal.str "bad", JSVal.obj 2])])
        "$vaccinations" none).result
      = Except.error (JSErr.loadError "not found")
    ∧ (vaccinateWith loaderE app0
        (JSVal.fn 0 [("$vaccinations", [JSVal.obj 1, JSVal.str "bad", JSVal.obj 2])])
        "$vaccinations" none).loaderCalls
      = [JSVal.obj 1] ++ [JSVal.str "bad"]
    ∧ (vaccinateWith loaderE app0
        (JSVal.fn 0 [("$vaccinations", [JSVal.obj 1, JSVal.str "bad", JSVal.obj 2])])
        "$vaccinations" none).invocations = [] :=
  vaccinate_fail_fast loaderE app0 0
    [("$vaccinations", [JSVal.obj 1, JSVal.str "bad", JSVal.obj 2])]
    "$vaccinations" none [JSVal.obj 1] (JSVal.str "bad") [JSVal.obj 2]
    (JSErr.loadError "not found") rfl
    (by
      intro r hr
      simp only [List.mem_singleton] at hr
      subst hr
      exact ⟨JSVal.undef, rfl⟩)
    rfl

/-- C8: when the target has no array under the configured dependencies
property, vaccinate fails with the unchecked TypeError of reading a
property of undefined, and the target is never invoked. -/
theorem vaccinate_missing_declaration
    (loader : JSVal → Except JSErr JSVal) (app : ApplyFn)
    (id : Nat) (props : List (String × List JSVal)) (depsProp : String)
    (context : Option JSVal)
    (hnone : propLookup props depsProp = none) :
    (vaccinateWith loader app (JSVal.fn id props) depsProp context).result
        = Except.error (JSErr.typeError mapOfUndefinedMsg)
    ∧ (vaccinateWith loader app (JSVal.fn id props) depsProp context).invocations
        = []
    ∧ (vaccinateWith loader app (JSVal.fn id props) depsProp context).loaderCalls
        = [] := by
  simp [vaccinateWith, hnone]

theorem vaccinate_missing_declaration_witness :
    (vaccinateWith loader0 app0 (JSVal.fn 3 []) "$vaccinations" none).result
        = Except.error (JSErr.typeError mapOfUndefinedMsg)
    ∧ (vaccinateWith loader0 app0 (JSVal.fn 3 []) "$vaccinations" none).invocations
        = []
    ∧ (vaccinateWith loader0 app0 (JSVal.fn 3 []) "$vaccinations" none).loaderCalls
        = [] :=
  vaccinate_missing_declaration loader0 app0 3 [] "$vaccinations" none rfl

/-- C6 counterexample: with the empty string provided as the invocation
context (a provided but falsy value), the target is invoked with no bound
receiver instead of the provided context, refuting the claim that a
provided context is always the receiver. -/
theorem provided_falsy_context_not_receiver :
    (vaccinateWith loader0 app0 (JSVal.fn 0 [("$vaccinations", [])])
        "$vaccinations" (some (JSVal.str ""))).invocations = [(none, [])]
    ∧ some (JSVal.str "") ≠ (none : Option JSVal) :=
  ⟨rfl, by simp⟩

/-- C6 amended: a provided truthy context is the receiver of the target
invocation; with no context, or with a provided falsy context, the target
is invoked with no bound receiver. -/
theorem vaccinate_context_receiver
    (loader : JSVal → Except JSErr JSVal) (app : ApplyFn) (g : JSVal → JSVal)
    (id : Nat) (props : List (String × List JSVal)) (depsProp : String)
    (decl : List JSVal)
    (hdecl : propLookup props depsProp = some decl)
    (hload : ∀ r ∈ decl, loader r = Except.ok (g r)) :
    (∀ c, truthy c = true →
      (vaccinateWith loader app (JSVal.fn id props) depsProp (some c)).invocations
        = [(some c, decl.map g)])
    ∧ (vaccinateWith loader app (JSVal.fn id props) depsProp none).invocations
        = [(none, decl.map g)]
    ∧ (∀ c, truthy c = false →
      (vaccinateWith loader app (JSVal.fn id props) depsProp (some c)).invocations
        = [(none, decl.map g)]) := by
  have hm := mapLoader_all_ok loader g decl hload
  refine ⟨fun c hc => ?_, ?_, fun c hc => ?_⟩
  · simp [vaccinateWith, hdecl, hm, jsReceiver, hc]
  · simp [vaccinateWith, hdecl, hm, jsReceiver]
  · simp [vaccinateWith, hdecl, hm, jsReceiver, hc]

theorem vaccinate_context_receiver_witness :
    (vaccinateWith loader0 app0 (JSVal.fn 0 props0) "$vaccinations"
        (some (JSVal.obj 3))).invocations = [(some (JSVal.obj 3), decl0.map g0)] :=
  (vaccinate_context_receiver loader0 app0 g0 0 props0 "$vaccinations" decl0
    rfl (fun _ _ => rfl)).1 (JSVal.obj 3) rfl

theorem tryDirs_all_fail (host : HostRequire) (name : String) (e : JSErr) :
    ∀ init : List String, ∀ dl : String, ∀ tr : List JsEvent,
      ∀ ex : Option JSErr,
      (∀ d ∈ init, ∃ e2, host (d ++ "/" ++ name) = Except.error e2) →
      host (dl ++ "/" ++ name) = Except.error e →
      tryDirs host name (init ++ [dl]) tr ex
        = (tr ++ (init ++ [dl]).map (fun d => JsEvent.host (d ++ "/" ++ name)),
            none, some e) := by
  intro init
  induction init with
  | nil =>
    intro dl tr ex _ hlast
    simp [tryDirs, hlast]
  | cons d ds ih =>
    intro dl tr ex hfail hlast
    obtain ⟨e2, he2⟩ := hfail d (List.mem_cons_self d ds)
    have hrest := ih dl (tr ++ [JsEvent.host (d ++ "/" ++ name)]) (some e2)
      (fun x hx => hfail x (List.mem_cons_of_mem d hx)) hlast
    simp [tryDirs, he2, hrest]

theorem tryDirs_first_success (host : HostRequire) (name : String)
    (v : JSVal) :
    ∀ init : List String, ∀ dsucc : String, ∀ rest : List String,
      ∀ tr : List JsEvent, ∀ ex : Option JSErr,
      (∀ d ∈ init, ∃ e2, host (d ++ "/" ++ name) = Except.error e2) →
      host (dsucc ++ "/" ++ name) = Except.ok v →
      tryDirs host name (init ++ dsucc :: rest) tr ex
        = (tr ++ (init ++ [dsucc]).map (fun d => JsEvent.host (d ++ "/" ++ name)),
            some v, none) := by
  intro init
  induction init with
  | nil =>
    intro dsucc rest tr ex _ hok
    simp [tryDirs, hok]
  | cons d ds ih =>
    intro dsucc rest tr ex hfail hok
    obtain ⟨e2, he2⟩ := hfail d (List.mem_cons_self d ds)
    have hrest := ih dsucc rest (tr ++ [JsEvent.host (d ++ "/" ++ name)])
      (some e2) (fun x hx => hfail x (List.mem_cons_of_mem d hx)) hok
    simp [tryDirs, he2, hrest]

/-- The early return on line 30 of both default loaders: a non-string
reference is returned raw, with no host call and no recursive-vaccination
check, even when it is itself a function carrying a dependency
declaration. -/
theorem default_loader_passthrough_raw (host : HostRequire) (app : ApplyFn)
    (fuel : Nat) (opts : VaccOptions) (m : JSVal) (tr : List JsEvent)
    (hns : ∀ s, m ≠ JSVal.str s) :
    defaultRequire host app fuel opts m tr = (tr, Except.ok m) := by
  cases m with
  | str s => exact absurd rfl (hns s)
  | undef => rfl
  | obj i => rfl
  | fn i props => rfl

/-- C2: for a string dependency reference, whenever the load phase of the
part_000 default loader obtains from the host module system a value that
is a function carrying an array under the configured dependencies
property, the final resolved value is the result of recursively applying
vaccinate to that function with the same options (and, this being the
part_000 vaccinate, no invocation context), not the raw loaded
function. -/
theorem default_loader_recursive_vaccination
    (host : HostRequire) (app : ApplyFn) (fuel : Nat) (opts : VaccOptions)
    (s : String) (tr tr2 : List JsEvent) (id : Nat)
    (props : List (String × List JSVal)) (decl : List JSVal)
    (hload : loadPhase host opts (JSVal.str s) tr
      = (tr2, Except.ok (JSVal.fn id props)))
    (hdecl : propLookup props opts.dependenciesProperty = some decl) :
    defaultRequire host app fuel opts (JSVal.str s) tr
      = vaccinate host app fuel (JSVal.fn id props) opts tr2 := by
  simp [defaultRequire, requireWith, hload, hdecl]

theorem default_loader_recursive_vaccination_witness :
    defaultRequire host0 app0 1 opts0 (JSVal.str "u") []
      = vaccinate host0 app0 1 (JSVal.fn 5 [("$vaccinations", [])]) opts0
          [JsEvent.host "u"] :=
  default_loader_recursive_vaccination host0 app0 1 opts0 "u"
    [] [JsEvent.host "u"] 5 [("$vaccinations", [])] [] rfl rfl

/-- C3: when a relative reference is searched against a non-empty
directory list and the host loader fails under every candidate, the
default loader raises the failure recorded while attempting the last
candidate; the trace shows every candidate was attempted in order. -/
theorem default_loader_raises_last_error
    (host : HostRequire) (app : ApplyFn) (fuel : Nat) (opts : VaccOptions)
    (s : String) (init : List String) (dl : String) (e : JSErr)
    (tr : List JsEvent)
    (hmd : opts.moduleDir = ModuleDir.dirList (init ++ [dl]))
    (hrel : startsWithDotSlash s = true)
    (hfail : ∀ d ∈ init, ∃ e2, host (d ++ "/" ++ s) = Except.error e2)
    (hlast : host (dl ++ "/" ++ s) = Except.error e) :
    defaultRequire host app fuel opts (JSVal.str s) tr
      = (tr ++ (init ++ [dl]).map (fun d => JsEvent.host (d ++ "/" ++ s)),
          Except.error e) := by
  have ht := tryDirs_all_fail host s e init dl tr none hfail hlast
  simp [defaultRequire, requireWith, loadPhase, hmd, hrel, moduleDirTruthy,
    toDirList, ht]

theorem default_loader_raises_last_error_witness :
    defaultRequire hostB app0 0 optsL2 (JSVal.str "./x") []
      = ([JsEvent.host "D1/./x", JsEvent.host "D2/./x"],
          Except.error (JSErr.loadError "D2/./x")) :=
  default_loader_raises_last_error hostB app0 0 optsL2 "./x" ["D1"] "D2"
    (JSErr.loadError "D2/./x") [] rfl rfl
    (fun d _ => ⟨JSErr.loadError (d ++ "/" ++ "./x"), rfl⟩) rfl

/-- C4: when a relative reference is searched against a directory list,
candidates are attempted in list order and the search stops at the first
directory under which the host loader succeeds: the load phase yields the
module found under that directory with no error and no later candidate
attempted, and, when that module is not itself a declaring function, it is
the final resolved value. -/
theorem default_loader_first_success
    (host : HostRequire) (app : ApplyFn) (fuel : Nat) (opts : VaccOptions)
    (s : String) (init : List String) (dsucc : String) (rest : List String)
    (v : JSVal) (tr : List JsEvent)
    (hmd : opts.moduleDir = ModuleDir.dirList (init ++ dsucc :: rest))
    (hrel : startsWithDotSlash s = true)
    (hfail : ∀ d ∈ init, ∃ e2, host (d ++ "/" ++ s) = Except.error e2)
    (hok : host (dsucc ++ "/" ++ s) = Except.ok v) :
    loadPhase host opts (JSVal.str s) tr
      = (tr ++ (init ++ [dsucc]).map (fun d => JsEvent.host (d ++ "/" ++ s)),
          Except.ok v)
    ∧ (isDeclaringFn opts.dependenciesProperty v = false →
        defaultRequire host app fuel opts (JSVal.str s) tr
          = (tr ++ (init ++ [dsucc]).map (fun d => JsEvent.host (d ++ "/" ++ s)),
              Except.ok v)) := by
  have ht := tryDirs_first_success host s v init dsucc rest tr none hfail hok
  have hl : loadPhase host opts (JSVal.str s) tr
      = (tr ++ (init ++ [dsucc]).map (fun d => JsEvent.host (d ++ "/" ++ s)),
          Except.ok v) := by
    simp [loadPhase, hmd, hrel, moduleDirTruthy, toDirList, ht]
  refine ⟨hl, fun hnd => ?_⟩
  unfold defaultRequire requireWith
  dsimp only
  rw [hl]
  cases v with
  | fn idv propsv =>
    cases hpl : propLookup propsv opts.dependenciesProperty with
    | none => simp [hpl]
    | some dv => simp [isDeclaringFn, hpl] at hnd
  | undef => simp
  | str s2 => simp
  | obj id2 => simp

theorem default_loader_first_success_witness :
    defaultRequire hostC app0 0 optsL3 (JSVal.str "./x") []
      = ([JsEvent.host "D1/./x", JsEvent.host "D2/./x"],
          Except.ok (JSVal.obj 9)) :=
  (default_loader_first_success hostC app0 0 optsL3 "./x" ["D1"] "D2" ["D3"]
    (JSVal.obj 9) [] rfl rfl
    (by
      intro d hd
      simp only [List.mem_singleton] at hd
      subst hd
      exact ⟨JSErr.loadError "D1/./x", rfl⟩)
    rfl).2 rfl

/-- C10: when a relative reference is resolved by the part_000 default
loader with an empty moduleDir list, the directory loop runs zero times,
so no exception is recorded and none is raised, the host loader is never
invoked (the trace is unchanged), and the resolved value is undefined. -/
theorem default_loader_empty_module_dir
    (host : HostRequire) (app : ApplyFn) (fuel : Nat) (opts : VaccOptions)
    (s : String) (tr : List JsEvent)
    (hmd : opts.moduleDir = ModuleDir.dirList [])
    (hrel : startsWithDotSlash s = true) :
    defaultRequire host app fuel opts (JSVal.str s) tr
      = (tr, Except.ok JSVal.undef) := by
  simp [defaultRequire, requireWith, loadPhase, hmd, hrel, moduleDirTruthy,
    toDirList, tryDirs]

theorem default_loader_empty_module_dir_witness :
    defaultRequire hostB app0 0 optsE (JSVal.str "./x") []
      = ([], Except.ok JSVal.undef) :=
  default_loader_empty_module_dir hostB app0 0 optsE "./x" [] rfl rfl

/-- The restriction under which the two implementations are compared:
moduleDir is absent or a single base-path string. -/
def singleOrAbsent (md : ModuleDir) : Prop :=
  md = ModuleDir.absent ∨ ∃ d, md = ModuleDir.single d

theorem loadPhase_lib_eq (host : HostRequire) (opts : VaccOptions)
    (m : JSVal) (tr : List JsEvent) (hmd : singleOrAbsent opts.moduleDir) :
    loadPhaseLib host opts m tr = loadPhase host opts m tr := by
  cases m with
  | str s =>
    rcases hmd with h | ⟨d, h⟩
    · simp [loadPhaseLib, loadPhase, h, moduleDirTruthy]
    · unfold loadPhaseLib loadPhase
      rw [h]
      cases hb : moduleDirTruthy (ModuleDir.single d) && startsWithDotSlash s with
      | false => simp [hb]
      | true =>
        cases hh : host (d ++ "/" ++ s) with
        | ok v => simp [hb, moduleDirToString, toDirList, tryDirs, hh]
        | error e => simp [hb, moduleDirToString, toDirList, tryDirs, hh]
  | undef => rfl
  | obj i => rfl
  | fn i props => rfl

theorem requireWith_lib_eq (host : HostRequire) (opts : VaccOptions)
    (vacL : VacFunLib) (vacP : VacFun)
    (hvac : ∀ f o tr2, singleOrAbsent o.moduleDir →
      vacL f o none tr2 = vacP f o tr2)
    (hmd : singleOrAbsent opts.moduleDir) (m : JSVal) (tr : List JsEvent) :
    requireWithLib vacL host opts m tr = requireWith vacP host opts m tr := by
  unfold requireWithLib requireWith
  cases m with
  | str s =>
    dsimp only
    rw [loadPhase_lib_eq host opts (JSVal.str s) tr hmd]
    cases hl : loadPhase host opts (JSVal.str s) tr with
    | mk tr2 res =>
      cases res with
      | error e => rfl
      | ok v =>
        cases v with
        | fn id props =>
          cases hpl : propLookup props opts.dependenciesProperty with
          | none => simp [hpl]
          | some dv => simp only [hpl]; exact hvac _ opts tr2 hmd
        | undef => rfl
        | str s2 => rfl
        | obj i => rfl
  | undef => rfl
  | obj i => rfl
  | fn i props => rfl

theorem resolveWith_congr
    (L1 L2 : JSVal → List JsEvent → List JsEvent × Except JSErr JSVal)
    (h : ∀ m tr, L1 m tr = L2 m tr) :
    ∀ refs : List JSVal, ∀ tr : List JsEvent,
      resolveWith L1 refs tr = resolveWith L2 refs tr := by
  intro refs
  induction refs with
  | nil => intro tr; rfl
  | cons r rs ih =>
    intro tr
    unfold resolveWith
    rw [h r tr]
    cases hr : L2 r tr with
    | mk tr2 res =>
      cases res with
      | error e => rfl
      | ok v => dsimp only; rw [ih tr2]

theorem vaccinate_lib_equiv (host : HostRequire) (app : ApplyFn) :
    ∀ fuel : Nat, ∀ func : JSVal, ∀ opts : VaccOptions, ∀ tr : List JsEvent,
      singleOrAbsent opts.moduleDir →
      vaccinateLib host app fuel func opts none tr
        = vaccinate host app fuel func opts tr := by
  intro fuel
  induction fuel with
  | zero => intro func opts tr _; rfl
  | succ n ih =>
    intro func opts tr hmd
    show vaccinateStepLib host app (vaccinateLib host app n) func opts none tr
      = vaccinateStep host app (vaccinate host app n) func opts tr
    unfold vaccinateStepLib vaccinateStep
    cases func with
    | fn id props =>
      cases hpl : propLookup props opts.dependenciesProperty with
      | none => simp [hpl]
      | some decl =>
        have hre : ∀ m tr2,
            requireWithLib (vaccinateLib host app n) host opts m tr2
              = requireWith (vaccinate host app n) host opts m tr2 :=
          fun m tr2 => requireWith_lib_eq host opts _ _
            (fun f o tr3 ho => ih f o tr3 ho) hmd m tr2
        have hres := resolveWith_congr
          (fun m tr2 => requireWithLib (vaccinateLib host app n) host opts m tr2)
          (fun m tr2 => requireWith (vaccinate host app n) host opts m tr2)
          hre decl tr
        simp only [hpl, hres]
        cases hr : resolveWith
            (fun m tr2 => requireWith (vaccinate host app n) host opts m tr2)
            decl tr with
        | mk tr2 res =>
          cases res with
          | error e => rfl
          | ok args => simp [jsReceiver]
    | undef => rfl
    | str s => rfl
    | obj i => rfl

/-- Properties of a target declaring a relative reference and a
pass-through object, used in the equivalence witness. -/
def props1 : List (String × List JSVal) :=
  [("$vaccinations", [JSVal.str "./m", JSVal.obj 2])]

/-- C9: for every target, every options record whose moduleDir is absent
or a single base-path string, and no invocation context, the src/lib and
part_000 implementations are observationally equivalent: same trace of
host-loader calls, same target invocations with the same resolved
arguments, same result, same error in failure cases. -/
theorem lib_unnamed_equivalent (host : HostRequire) (app : ApplyFn)
    (fuel : Nat) (func : JSVal) (opts : VaccOptions) (tr : List JsEvent)
    (hmd : opts.moduleDir = ModuleDir.absent
      ∨ ∃ d, opts.moduleDir = ModuleDir.single d) :
    vaccinateLib host app fuel func opts none tr
      = vaccinate host app fuel func opts tr :=
  vaccinate_lib_equiv host app fuel func opts tr hmd

theorem lib_unnamed_equivalent_witness :
    vaccinateLib hostC app0 2 (JSVal.fn 0 props1) optsS none []
      = vaccinate hostC app0 2 (JSVal.fn 0 props1) optsS [] :=
  lib_unnamed_equivalent hostC app0 2 (JSVal.fn 0 props1) optsS []
    (Or.inr ⟨"D", rfl⟩)

/-- C5 counterexample: calling vaccinate with an empty options object as
the explicit options argument mutates it: after the lodash defaults call
on line 20 the object the caller passed carries the filled-in default
fields, so it no longer equals the empty object the caller supplied. -/
theorem options_merge_mutates_caller_object :
    vaccinateOptionsAfter (some emptyOptionsObj) vaccinateDefaultsObj
      ≠ emptyOptionsObj := by decide

/-- C5 amended: the effective per-call options record is a one-time merge
of the caller's explicit overrides atop the current snapshot of the
defaults (fields present on the caller's object win, absent fields are
filled from the defaults), but the merge is performed in place on the
caller's options object, which therefore equals the merged record, not its
original value, after the call. -/
theorem vaccinate_options_merge (o d : OptionsObj) :
    vaccinateOptionsAfter (some o) d = lodashDefaults o d
    ∧ (∀ s, o.dependenciesProperty = some s →
        (vaccinateOptionsAfter (some o) d).dependenciesProperty = some s)
    ∧ (o.dependenciesProperty = none →
        (vaccinateOptionsAfter (some o) d).dependenciesProperty
          = d.dependenciesProperty)
    ∧ (∀ m, o.moduleDir = some m →
        (vaccinateOptionsAfter (some o) d).moduleDir = some m)
    ∧ (o.moduleDir = none →
        (vaccinateOptionsAfter (some o) d).moduleDir = d.moduleDir)
    ∧ (∀ r, o.require = some r →
        (vaccinateOptionsAfter (some o) d).require = some r)
    ∧ (o.require = none →
        (vaccinateOptionsAfter (some o) d).require = d.require) := by
  refine ⟨rfl, fun s h => ?_, fun h => ?_, fun m h => ?_, fun h => ?_,
    fun r h => ?_, fun h => ?_⟩ <;>
    simp [vaccinateOptionsAfter, lodashDefaults, h]

/-- A caller options object overriding only the dependencies property. -/
def overrideObj : OptionsObj := ⟨some "inject", none, none⟩

theorem vaccinate_options_merge_witness :
    (vaccinateOptionsAfter (some overrideObj) vaccinateDefaultsObj).dependenciesProperty
        = some "inject"
    ∧ (vaccinateOptionsAfter (some overrideObj) vaccinateDefaultsObj).require
        = vaccinateDefaultsObj.require :=
  ⟨(vaccinate_options_merge overrideObj vaccinateDefaultsObj).2.1 "inject" rfl,
    (vaccinate_options_merge overrideObj vaccinateDefaultsObj).2.2.2.2.2.2 rfl⟩
